import Mathlib

/-!
Verification of the task-manager repository: shallow embedding of the
attachment-upload validators, the blob-naming scheme, the attachment
lifecycle (upload / delete coordination with the blob backend), the task
list view, the task completion timestamp logic, and the password and
file validators, together with theorems settling the specified claims.

Strings processed character by character are modelled as `List Char`
(ASCII, matching the behaviour of Python's `re` module and string
methods on ASCII input).
-/

namespace TaskManager

/-- ASCII uppercase letter test, mirroring the regex class [A-Z]. -/
def isAsciiUpper (c : Char) : Bool := 'A' ≤ c && c ≤ 'Z'

/-- ASCII lowercase letter test, mirroring the regex class [a-z]. -/
def isAsciiLower (c : Char) : Bool := 'a' ≤ c && c ≤ 'z'

/-- ASCII digit test, mirroring the regex class \d on ASCII input. -/
def isAsciiDigit (c : Char) : Bool := '0' ≤ c && c ≤ '9'

/-- Alphanumeric ASCII character. -/
def isAsciiAlnum (c : Char) : Bool := isAsciiUpper c || isAsciiLower c || isAsciiDigit c

/-- Python regex word character \w on ASCII input: alphanumeric or underscore. -/
def isPyWordChar (c : Char) : Bool := isAsciiAlnum c || c = '_'

/-- Python regex whitespace \s on ASCII input. -/
def isPySpace (c : Char) : Bool :=
  c = ' ' || c = '\t' || c = '\n' || c = '\r' || c = '\x0b' || c = '\x0c'

/-- ASCII lower-casing of a single character, as Python str.lower on ASCII. -/
def toLowerAscii (c : Char) : Char :=
  if isAsciiUpper c then Char.ofNat (c.toNat + 32) else c

/-! ## attachments/validators.py -/

/-- MAX_FILE_SIZE from attachments/validators.py: 10 * 1024 * 1024 bytes. -/
def MAX_FILE_SIZE : Nat := 10 * 1024 * 1024

/-- ALLOWED_EXTENSIONS from attachments/validators.py. -/
def ALLOWED_EXTENSIONS : List (List Char) :=
  ["pdf".toList, "jpg".toList, "jpeg".toList, "png".toList, "gif".toList,
   "doc".toList, "docx".toList, "xls".toList, "xlsx".toList,
   "txt".toList, "csv".toList, "zip".toList]

/-- ALLOWED_MIME_TYPES from attachments/validators.py. -/
def ALLOWED_MIME_TYPES : List (List Char) :=
  ["application/pdf".toList,
   "image/jpeg".toList,
   "image/png".toList,
   "image/gif".toList,
   "application/msword".toList,
   "application/vnd.openxmlformats-officedocument.wordprocessingml.document".toList,
   "application/vnd.ms-excel".toList,
   "application/vnd.openxmlformats-officedocument.spreadsheetml.sheet".toList,
   "text/plain".toList,
   "text/csv".toList,
   "application/zip".toList,
   "application/x-zip-compressed".toList]

/-- Embedding of validate_file_size: rejects an empty file and a file
larger than MAX_FILE_SIZE; a raised ValidationError is an `Except.error`. -/
def validate_file_size (size : Nat) : Except String Unit :=
  if size = 0 then Except.error "File is empty."
  else if size > MAX_FILE_SIZE then Except.error "File size exceeds 10MB limit."
  else Except.ok ()

/-- The characters after the last '.' of a filename, as Python
filename.rsplit with separator '.' and maxsplit 1 yields at index 1
(meaningful when the filename contains a dot). -/
def afterLastDot (l : List Char) : List Char :=
  (l.reverse.takeWhile (fun c => c != '.')).reverse

/-- Embedding of validate_file_extension: a filename with no dot is
rejected with the distinct no-extension error; otherwise the substring
after the last dot is lower-cased and must be in ALLOWED_EXTENSIONS. -/
def validate_file_extension (filename : List Char) : Except String Unit :=
  if !(filename.contains '.') then Except.error "File has no extension."
  else
    let extension := (afterLastDot filename).map toLowerAscii
    if !(ALLOWED_EXTENSIONS.contains extension) then
      Except.error "File extension not allowed."
    else Except.ok ()

/-- Embedding of validate_mime_type.  The result of filetype.guess on the
first 2 KiB of the file is abstracted as the `sniffed` argument (`none`
when the library cannot identify the content); the rest follows the
source: on `none` a txt or csv extension falls back to text/plain or
text/csv, anything else is an error, and the resulting MIME type must be
in ALLOWED_MIME_TYPES. -/
def validate_mime_type (filename : List Char) (sniffed : Option (List Char)) :
    Except String Unit :=
  let mimeResult : Except String (List Char) :=
    match sniffed with
    | none =>
        let extension :=
          if filename.contains '.' then (afterLastDot filename).map toLowerAscii else []
        if extension = "txt".toList then Except.ok "text/plain".toList
        else if extension = "csv".toList then Except.ok "text/csv".toList
        else Except.error "Could not determine file type."
    | some mime => Except.ok mime
  match mimeResult with
  | Except.error e => Except.error e
  | Except.ok mime_type =>
      if !(ALLOWED_MIME_TYPES.contains mime_type) then
        Except.error "File type not allowed."
      else Except.ok ()

/-! ## attachments/forms.py -/

/-- An uploaded file as the form sees it: original name, size in bytes,
the content type sniffed from the first bytes (argument to
validate_mime_type, `none` when undetectable), and the client-declared
content type header. -/
structure UploadedFile where
  name : List Char
  size : Nat
  sniffed : Option (List Char)
  content_type : List Char
deriving DecidableEq, Repr

/-- Embedding of AttachmentUploadForm.clean_file: validates size then
extension (and nothing else) and returns the file. -/
def clean_file (f : UploadedFile) : Except String UploadedFile :=
  match validate_file_size f.size with
  | Except.error e => Except.error e
  | Except.ok _ =>
    match validate_file_extension f.name with
    | Except.error e => Except.error e
    | Except.ok _ => Except.ok f

/-! ## accounts/validators.py -/

/-- The special-character set of validate_password_complexity. -/
def SPECIAL_CHARS : List Char :=
  ['!', '@', '#', '$', '%', '^', '&', '*', '(', ')', ',', '.', '?', '\"',
   ':', '\x7b', '\x7d', '|', '<', '>']

/-- Embedding of validate_password_complexity: length at least 8, then
one uppercase, one lowercase, one digit, one special character, each
checked in turn with its own error. -/
def validate_password_complexity (password : List Char) : Except String Unit :=
  if password.length < 8 then
    Except.error "Password must be at least 8 characters long."
  else if !(password.any isAsciiUpper) then
    Except.error "Password must contain at least one uppercase letter."
  else if !(password.any isAsciiLower) then
    Except.error "Password must contain at least one lowercase letter."
  else if !(password.any isAsciiDigit) then
    Except.error "Password must contain at least one digit."
  else if !(password.any (fun c => SPECIAL_CHARS.contains c)) then
    Except.error "Password must contain at least one special character."
  else Except.ok ()

/-! ## attachments/utils.py -/

/-- Embedding of os.path.splitext on a plain filename (no path
separators): the extension starts at the last dot, unless every
character before that dot is itself a dot, in which case there is no
extension. -/
def splitext (p : List Char) : List Char × List Char :=
  let r := p.reverse
  if r.contains '.' then
    let afterRev := r.takeWhile (fun c => c != '.')
    let rest := r.dropWhile (fun c => c != '.')
    let base := rest.tail.reverse
    if base.any (fun c => c != '.') then (base, '.' :: afterRev.reverse)
    else (p, [])
  else (p, [])

/-- Characters kept by re.sub removing everything outside \w, \s and
the hyphen. -/
def keepWordSpaceHyphen (c : Char) : Bool := isPyWordChar c || isPySpace c || c = '-'

/-- Embedding of re.sub replacing each maximal whitespace run with a
single underscore.  The flag records whether the previous character was
whitespace. -/
def collapseWsAux : Bool → List Char → List Char
  | _, [] => []
  | prevSpace, c :: rest =>
    if isPySpace c then
      if prevSpace then collapseWsAux true rest
      else '_' :: collapseWsAux true rest
    else c :: collapseWsAux false rest

/-- Replace every maximal whitespace run with a single underscore. -/
def collapseWs (l : List Char) : List Char := collapseWsAux false l

/-- Test for the characters trimmed by str.strip with argument
underscore-hyphen. -/
def isUnderscoreHyphen (c : Char) : Bool := c = '_' || c = '-'

/-- Embedding of Python str.strip removing leading and trailing
underscores and hyphens. -/
def pyStrip (l : List Char) : List Char :=
  ((l.dropWhile isUnderscoreHyphen).reverse.dropWhile isUnderscoreHyphen).reverse

/-- Python slice l[:k] for an integer bound k: a negative bound counts
from the end (clamped at zero). -/
def pySliceTo (l : List Char) (k : Int) : List Char :=
  if 0 ≤ k then l.take k.toNat else l.take (l.length - (-k).toNat)

/-- Embedding of sanitize_filename from attachments/utils.py: split off
the extension, drop characters outside word-space-hyphen, collapse
whitespace runs to underscores, trim leading and trailing underscores
and hyphens, truncate the base name to max_length minus the extension
length (Python slice semantics), re-attach the extension and lower-case
the whole result. -/
def sanitize_filename (filename : List Char) (max_length : Nat) : List Char :=
  let pr := splitext filename
  let name0 := pr.1
  let ext := pr.2
  let name1 := name0.filter keepWordSpaceHyphen
  let name2 := collapseWs name1
  let name3 := pyStrip name2
  let max_name_length : Int := (max_length : Int) - (ext.length : Int)
  let name4 := if (name3.length : Int) > max_name_length
               then pySliceTo name3 max_name_length else name3
  (name4 ++ ext).map toLowerAscii

/-! ## attachments/storage.py -/

/-- A UTC wall-clock instant with second precision, the data consumed by
strftime with format %Y%m%d%H%M%S. -/
structure UTCTime where
  year : Nat
  month : Nat
  day : Nat
  hour : Nat
  minute : Nat
  second : Nat
deriving DecidableEq, Repr

/-- Zero-padded two-digit rendering of a field value below 100, as
strftime prints %m %d %H %M %S for in-range values. -/
def pad2 (n : Nat) : List Char := [Nat.digitChar (n / 10 % 10), Nat.digitChar (n % 10)]

/-- Zero-padded four-digit rendering of a year below 10000, as strftime
prints %Y for in-range values. -/
def pad4 (n : Nat) : List Char :=
  [Nat.digitChar (n / 1000 % 10), Nat.digitChar (n / 100 % 10),
   Nat.digitChar (n / 10 % 10), Nat.digitChar (n % 10)]

/-- Embedding of datetime.strftime with format %Y%m%d%H%M%S. -/
def strftimeYmdHMS (t : UTCTime) : List Char :=
  pad4 t.year ++ pad2 t.month ++ pad2 t.day ++ pad2 t.hour ++ pad2 t.minute ++ pad2 t.second

/-- Decimal rendering of a natural number, as Python str on an int. -/
def natToChars (n : Nat) : List Char := Nat.toDigits 10 n

/-- Embedding of AzureBlobStorage.generate_blob_name.  The current UTC
time and the hex digest of uuid.uuid4() (32 lowercase hex characters)
are nondeterministic inputs of the source and appear as arguments; the
source takes the first 8 characters of the digest. -/
def generate_blob_name (task_id : Nat) (now : UTCTime) (uuid_hex : List Char)
    (original_filename : List Char) : List Char :=
  natToChars task_id ++ '/' ::
    (strftimeYmdHMS now ++ '_' ::
      (uuid_hex.take 8 ++ '_' :: sanitize_filename original_filename 100))

/-- The sanitized filename as the specification describes it: the base
name stripped of characters outside alphanumeric-space-hyphen-underscore,
whitespace runs collapsed to underscores, leading and trailing
underscores and hyphens trimmed, the result lower-cased and the base
truncated to the room the extension leaves under the fixed maximum
length, with the (lower-cased) original extension preserved. -/
def sanitize_filename_spec (filename : List Char) (max_length : Nat) : List Char :=
  let pr := splitext filename
  let base := (pyStrip (collapseWs (pr.1.filter keepWordSpaceHyphen))).map toLowerAscii
  let ext := pr.2.map toLowerAscii
  base.take (max_length - ext.length) ++ ext

/-! ## The blob backend and the attachment lifecycle -/

/-- Outcome of one call into the blob backend: a returned value, or a
raised exception. -/
inductive CallResult (α : Type) where
  | ok (val : α)
  | raised
deriving DecidableEq, Repr

/-- The behaviour the blob backend exhibits during one attachment-delete
flow: what the exists check does, and what the delete call would do if
issued. -/
structure BlobBackend where
  existsResult : CallResult Bool
  deleteResult : CallResult Bool
deriving DecidableEq, Repr

/-- True exactly when a backend call returned the value true. -/
def existsOkTrue : CallResult Bool → Bool
  | CallResult.ok true => true
  | _ => false

/-- What the pre-delete signal handler did: whether a delete call was
issued to the backend, and whether an exception escaped the handler. -/
structure SignalOutcome where
  deleteCalled : Bool
  raisedOut : Bool
deriving DecidableEq, Repr

/-- Embedding of delete_blob_on_attachment_delete from
attachments/signals.py: inside a try block, check existence and delete
only if the blob exists; every exception (from the exists check or the
delete call) is caught and logged, never re-raised. -/
def delete_blob_on_attachment_delete (b : BlobBackend) : SignalOutcome :=
  match b.existsResult with
  | CallResult.raised => { deleteCalled := false, raisedOut := false }
  | CallResult.ok false => { deleteCalled := false, raisedOut := false }
  | CallResult.ok true =>
      match b.deleteResult with
      | CallResult.ok _ => { deleteCalled := true, raisedOut := false }
      | CallResult.raised => { deleteCalled := true, raisedOut := false }

/-- A stored Attachment row. -/
structure AttachmentRec where
  id : Nat
  taskId : Nat
  file_name : List Char
  blob_name : List Char
  file_size : Nat
  content_type : List Char
deriving DecidableEq, Repr

/-- The attachment-delete flow: Django fires the pre-delete signal and,
provided no handler raised, removes the row from the database. -/
def attachment_delete (b : BlobBackend) (rows : List AttachmentRec)
    (a : AttachmentRec) : SignalOutcome × List AttachmentRec :=
  let s := delete_blob_on_attachment_delete b
  if s.raisedOut then (s, rows) else (s, rows.filter (fun r => r.id != a.id))

/-! ## attachments/views.py: the upload flow -/

/-- How AttachmentUploadView.form_valid ended: cap rejection, the caught
storage failure reported through form_invalid, or success. -/
inductive UploadOutcome where
  | capRejected
  | uploadFailed
  | success
deriving DecidableEq, Repr

/-- Embedding of AttachmentUploadView.form_valid: count the task's
existing attachments and reject at the cap of 5; generate the blob name;
upload to the backend — a raised error is caught, reported through
form_invalid and aborts the flow; only then create the Attachment row
with the file metadata. -/
def form_valid_upload (task_id : Nat) (rows : List AttachmentRec) (f : UploadedFile)
    (now : UTCTime) (uuid_hex : List Char) (saveResult : CallResult Unit)
    (new_id : Nat) : UploadOutcome × List AttachmentRec :=
  let existing_count := (rows.filter (fun a => a.taskId == task_id)).length
  if 5 ≤ existing_count then (UploadOutcome.capRejected, rows)
  else
    let bn := generate_blob_name task_id now uuid_hex f.name
    match saveResult with
    | CallResult.raised => (UploadOutcome.uploadFailed, rows)
    | CallResult.ok _ =>
        (UploadOutcome.success,
         rows ++ [{ id := new_id, taskId := task_id, file_name := f.name,
                    blob_name := bn, file_size := f.size,
                    content_type := f.content_type }])

/-! ## tasks/models.py and tasks/views.py -/

/-- A stored Task row.  The model's status choices are the strings
pendiente and completada and its priority choices alta, media and baja;
the columns are plain strings. -/
structure TaskRec where
  id : Nat
  owner : Nat
  title : String
  status : String
  priority : String
  due_date : Option Nat
  created_at : Nat
  completed_at : Option Nat
deriving DecidableEq, Repr

/-- Embedding of Task.save: when status is completada and completed_at
is unset, stamp it with the current time; when status is pendiente,
clear it; otherwise leave the row untouched before persisting. -/
def taskSave (now : Nat) (t : TaskRec) : TaskRec :=
  if t.status = "completada" ∧ t.completed_at = none then
    { t with completed_at := some now }
  else if t.status = "pendiente" then
    { t with completed_at := none }
  else t

/-- Stable insertion of an element into a list under a Boolean
comparison, placing it before the first element it compares
less-or-equal to. -/
def insertLe {α : Type} (le : α → α → Bool) (x : α) : List α → List α
  | [] => [x]
  | y :: ys => if le x y then x :: y :: ys else y :: insertLe le x ys

/-- Stable insertion sort under a Boolean comparison; models an SQL
ORDER BY on the given key. -/
def sortLe {α : Type} (le : α → α → Bool) : List α → List α
  | [] => []
  | x :: xs => insertLe le x (sortLe le xs)

/-- Lexicographic less-or-equal on character lists, the order SQL gives
strings under binary collation (and Python string comparison) on ASCII
data. -/
def lexLeChars : List Char → List Char → Bool
  | [], _ => true
  | _ :: _, [] => false
  | a :: as, b :: bs => if a < b then true else if b < a then false else lexLeChars as bs

/-- Less-or-equal on optional dates with NULLs first, the ascending
ORDER BY behaviour on a nullable column in the backing database. -/
def optNatLe : Option Nat → Option Nat → Bool
  | none, _ => true
  | some _, none => false
  | some x, some y => x ≤ y

/-- The query parameters TaskListView reads: status, priority and sort
(each absent when not supplied). -/
structure QueryParams where
  status : Option String
  priority : Option String
  sort : Option String
deriving DecidableEq, Repr

/-- Embedding of TaskListView.get_queryset: restrict to the requesting
user's tasks; filter by the status parameter when it is the literal
pending or completed; filter by the priority parameter when it is the
literal high, medium or low; then order by the sort parameter — plain
order_by on the priority column for sort=priority (lexicographic on the
stored string), the named column for the other recognised values, and
the model's default ordering (created_at descending) otherwise. -/
def get_queryset (user : Nat) (p : QueryParams) (db : List TaskRec) : List TaskRec :=
  let q0 := db.filter (fun t => t.owner == user)
  let q1 := match p.status with
    | some s => if s = "pending" ∨ s = "completed" then q0.filter (fun t => t.status == s) else q0
    | none => q0
  let q2 := match p.priority with
    | some s => if s = "high" ∨ s = "medium" ∨ s = "low" then q1.filter (fun t => t.priority == s) else q1
    | none => q1
  let sort := p.sort.getD "-created_at"
  if sort = "created_at" then sortLe (fun a b => a.created_at ≤ b.created_at) q2
  else if sort = "due_date" then sortLe (fun a b => optNatLe a.due_date b.due_date) q2
  else if sort = "-due_date" then sortLe (fun a b => optNatLe b.due_date a.due_date) q2
  else if sort = "priority" then
    sortLe (fun a b => lexLeChars a.priority.toList b.priority.toList) q2
  else if sort = "-priority" then
    sortLe (fun a b => lexLeChars b.priority.toList a.priority.toList) q2
  else sortLe (fun a b => b.created_at ≤ a.created_at) q2

/-- The ordinal priority rank the specification (and the unused manager
method by_priority) assigns: alta before media before baja, and
correspondingly high before medium before low for the English names the
view and tests use. -/
def priorityRank (s : String) : Nat :=
  if s = "alta" ∨ s = "high" then 1
  else if s = "media" ∨ s = "medium" then 2
  else if s = "baja" ∨ s = "low" then 3
  else 4

/-! ## Authorization outcomes of the task and attachment views -/

/-- The authorization-relevant outcome of a request: not found (404),
forbidden (403), or proceeding into the handler body. -/
inductive ViewOutcome where
  | notFound
  | forbidden
  | success
deriving DecidableEq, Repr

/-- Embedding of get_object_or_404 against the unfiltered Task table. -/
def lookupTask (db : List TaskRec) (pk : Nat) : Option TaskRec :=
  db.find? (fun t => t.id == pk)

/-- Embedding of get_object_or_404 against the unfiltered Attachment
table. -/
def lookupAttachment (db : List AttachmentRec) (pk : Nat) : Option AttachmentRec :=
  db.find? (fun a => a.id == pk)

/-- Embedding of the detail/update/delete task views through
TaskOwnerMixin: the object is fetched from the owner-filtered queryset,
so a task the user does not own is a 404. -/
def task_detail_view (user : Nat) (db : List TaskRec) (pk : Nat) : ViewOutcome :=
  match (db.filter (fun t => t.owner == user)).find? (fun t => t.id == pk) with
  | none => ViewOutcome.notFound
  | some _ => ViewOutcome.success

/-- Embedding of AttachmentUploadView.dispatch for an authenticated
user: the task is fetched unfiltered, then a non-owner gets 403. -/
def attachment_upload_dispatch (user : Nat) (taskdb : List TaskRec)
    (task_pk : Nat) : ViewOutcome :=
  match lookupTask taskdb task_pk with
  | none => ViewOutcome.notFound
  | some t => if t.owner ≠ user then ViewOutcome.forbidden else ViewOutcome.success

/-- Embedding of AttachmentDownloadView.get up to the authorization
check: the attachment is fetched unfiltered, its task's owner is
compared with the requesting user, and a non-owner gets 403. -/
def attachment_download_view (user : Nat) (taskdb : List TaskRec)
    (attdb : List AttachmentRec) (pk : Nat) : ViewOutcome :=
  match lookupAttachment attdb pk with
  | none => ViewOutcome.notFound
  | some a =>
      match lookupTask taskdb a.taskId with
      | none => ViewOutcome.notFound
      | some t => if t.owner ≠ user then ViewOutcome.forbidden else ViewOutcome.success

/-- Embedding of AttachmentDeleteView.dispatch for an authenticated
user: same lookup and ownership check as the download view. -/
def attachment_delete_dispatch (user : Nat) (taskdb : List TaskRec)
    (attdb : List AttachmentRec) (pk : Nat) : ViewOutcome :=
  match lookupAttachment attdb pk with
  | none => ViewOutcome.notFound
  | some a =>
      match lookupTask taskdb a.taskId with
      | none => ViewOutcome.notFound
      | some t => if t.owner ≠ user then ViewOutcome.forbidden else ViewOutcome.success

/-- Lowercase hexadecimal digit, the alphabet of uuid4().hex. -/
def isHexLowerChar (c : Char) : Bool := isAsciiDigit c || ('a' ≤ c && c ≤ 'f')

/-! ## Theorems -/

/-- C4: file-size validation rejects size 0, accepts exactly 10 MiB and
rejects 10 MiB + 1; it succeeds precisely on 0 < size ≤ 10485760. -/
theorem c4_file_size_iff (size : Nat) :
    validate_file_size size = Except.ok () ↔ (0 < size ∧ size ≤ 10485760) := by
  unfold validate_file_size MAX_FILE_SIZE
  split
  · simp
    omega
  · split
    · simp
      omega
    · simp
      omega

/-- Witness for C4 at the three boundary sizes named by the claim. -/
theorem c4_file_size_iff_witness :
    validate_file_size 10485760 = Except.ok () ∧
    validate_file_size 0 ≠ Except.ok () ∧
    validate_file_size 10485761 ≠ Except.ok () := by
  refine ⟨(c4_file_size_iff 10485760).mpr (by decide), fun h => ?_, fun h => ?_⟩
  · have := (c4_file_size_iff 0).mp h
    omega
  · have := (c4_file_size_iff 10485761).mp h
    omega

/-- C8: password complexity validation accepts a password exactly when
its length is at least 8 and it contains an uppercase letter, a
lowercase letter, a digit and a character of the special set; a password
missing any single class is rejected. -/
theorem c8_password_complexity_iff (p : List Char) :
    validate_password_complexity p = Except.ok () ↔
      (8 ≤ p.length ∧ (∃ c ∈ p, isAsciiUpper c) ∧ (∃ c ∈ p, isAsciiLower c) ∧
       (∃ c ∈ p, isAsciiDigit c) ∧ (∃ c ∈ p, c ∈ SPECIAL_CHARS)) := by
  unfold validate_password_complexity
  repeat' split
  all_goals simp_all [List.any_eq_true, List.contains, List.elem_iff]

/-- Witness for C8: an accepted password, and rejections each missing a
single class. -/
theorem c8_password_complexity_iff_witness :
    validate_password_complexity "Abc123!x".toList = Except.ok () ∧
    validate_password_complexity "abc123!x".toList ≠ Except.ok () ∧
    validate_password_complexity "ABC123!X".toList ≠ Except.ok () ∧
    validate_password_complexity "Abcdef!x".toList ≠ Except.ok () ∧
    validate_password_complexity "Abc12345".toList ≠ Except.ok () ∧
    validate_password_complexity "Ab1!x".toList ≠ Except.ok () := by
  refine ⟨(c8_password_complexity_iff _).mpr (by decide), ?_, ?_, ?_, ?_, ?_⟩
  all_goals
    intro h
    have hc := (c8_password_complexity_iff _).mp h
    revert hc
    decide

/-- The takeWhile of a list made of a wholly satisfying prefix, a
failing element and a tail is exactly that prefix. -/
theorem takeWhile_append_of_forall {α : Type} (p : α → Bool) (a : List α) (c : α)
    (b : List α) (ha : ∀ x ∈ a, p x = true) (hc : p c = false) :
    (a ++ c :: b).takeWhile p = a := by
  induction a with
  | nil => simp [List.takeWhile_cons, hc]
  | cons x xs ih =>
    have hx := ha x (by simp)
    simp only [List.cons_append, List.takeWhile_cons, hx, if_true]
    rw [ih (fun y hy => ha y (by simp [hy]))]

/-- Any list containing an element splits at its first occurrence. -/
theorem exists_first_split {α : Type} [DecidableEq α] (l : List α) (c : α)
    (h : c ∈ l) : ∃ pre post, l = pre ++ c :: post ∧ ∀ x ∈ pre, x ≠ c := by
  induction l with
  | nil => cases h
  | cons x xs ih =>
    by_cases hx : x = c
    · exact ⟨[], xs, by rw [hx]; rfl, by simp⟩
    · have hmem : c ∈ xs := by
        cases h with
        | head => exact absurd rfl hx
        | tail _ h => exact h
      obtain ⟨pre, post, heq, hpre⟩ := ih hmem
      refine ⟨x :: pre, post, by rw [heq]; rfl, ?_⟩
      intro y hy
      cases hy with
      | head => exact hx
      | tail _ hy => exact hpre y hy

/-- afterLastDot recovers the dot-free suffix of a filename that ends in
a dot-separated extension. -/
theorem afterLastDot_append (base ext : List Char) (hext : '.' ∉ ext) :
    afterLastDot (base ++ '.' :: ext) = ext := by
  unfold afterLastDot
  have hrev : (base ++ '.' :: ext).reverse = ext.reverse ++ '.' :: base.reverse := by
    simp
  rw [hrev, takeWhile_append_of_forall _ ext.reverse '.' base.reverse
        (fun x hx => by
          simp only [bne_iff_ne, ne_eq, decide_eq_true_eq]
          intro hxeq
          exact hext (by rw [← hxeq]; exact List.mem_reverse.mp hx))
        (by simp)]
  simp

/-- A filename containing a dot splits uniquely around its last dot, and
afterLastDot returns the part after it. -/
theorem exists_last_dot_split (f : List Char) (h : '.' ∈ f) :
    ∃ base ext, f = base ++ '.' :: ext ∧ '.' ∉ ext ∧ afterLastDot f = ext := by
  obtain ⟨pre, post, heq, hpre⟩ :=
    exists_first_split f.reverse '.' (List.mem_reverse.mpr h)
  have hf : f = post.reverse ++ '.' :: pre.reverse := by
    have : f.reverse.reverse = (pre ++ '.' :: post).reverse := by rw [heq]
    simpa using this
  have hnd : '.' ∉ pre.reverse := fun hx => hpre '.' (List.mem_reverse.mp hx) rfl
  exact ⟨post.reverse, pre.reverse, hf, hnd, by rw [hf, afterLastDot_append _ _ hnd]⟩

/-- C10: extension validation succeeds exactly when the filename
contains a dot and the substring after its last dot, lower-cased, is one
of the twelve allowed extensions; a dotless filename gets the distinct
no-extension error. -/
theorem c10_extension_validation (f : List Char) :
    (validate_file_extension f = Except.ok () ↔
      ∃ base ext, f = base ++ '.' :: ext ∧ '.' ∉ ext ∧
        ext.map toLowerAscii ∈ ALLOWED_EXTENSIONS)
    ∧ ('.' ∉ f → validate_file_extension f = Except.error "File has no extension.")
    ∧ ALLOWED_EXTENSIONS.length = 12 := by
  refine ⟨⟨?_, ?_⟩, ?_, by decide⟩
  · intro h
    unfold validate_file_extension at h
    by_cases hdot : '.' ∈ f
    · obtain ⟨base, ext, heq, hnd, hafter⟩ := exists_last_dot_split f hdot
      refine ⟨base, ext, heq, hnd, ?_⟩
      rw [if_neg (by simp [List.contains, List.elem_iff, hdot])] at h
      by_cases hmem : (afterLastDot f).map toLowerAscii ∈ ALLOWED_EXTENSIONS
      · rw [← hafter]; exact hmem
      · rw [if_pos (by simp [List.contains, List.elem_iff, hmem])] at h
        cases h
    · rw [if_pos (by simp [List.contains, List.elem_iff, hdot])] at h
      cases h
  · rintro ⟨base, ext, heq, hnd, hmem⟩
    have hdot : '.' ∈ f := by rw [heq]; simp
    have hafter : afterLastDot f = ext := by rw [heq, afterLastDot_append _ _ hnd]
    unfold validate_file_extension
    rw [if_neg (by simp [List.contains, List.elem_iff, hdot])]
    rw [if_neg (by simp [List.contains, List.elem_iff, hafter, hmem])]
  · intro hdot
    unfold validate_file_extension
    rw [if_pos (by simp [List.contains, List.elem_iff, hdot])]

/-- Witness for C10: a needed case-insensitive acceptance and the
distinct no-extension rejection. -/
theorem c10_extension_validation_witness :
    validate_file_extension "REPORT.PDF".toList = Except.ok () ∧
    validate_file_extension "noext".toList = Except.error "File has no extension." := by
  constructor
  · exact (c10_extension_validation _).1.mpr
      ⟨"REPORT".toList, "PDF".toList, by decide, by decide, by decide⟩
  · exact (c10_extension_validation _).2.1 (by decide)

/-- A file with an allowed extension in its name but executable sniffed
content. -/
def dosexecFile : UploadedFile :=
  { name := "report.pdf".toList, size := 100,
    sniffed := some "application/x-dosexec".toList,
    content_type := "application/pdf".toList }

/-- Counterexample to C3: this file's extension passes, its sniffed
content type fails the MIME allowlist, yet form validation accepts it —
the upload flow never invokes the sniffed-content gate, so the claimed
rejection does not happen. -/
theorem c3_mime_gate_counterexample :
    clean_file dosexecFile = Except.ok dosexecFile ∧
    validate_file_extension dosexecFile.name = Except.ok () ∧
    validate_mime_type dosexecFile.name dosexecFile.sniffed =
      Except.error "File type not allowed." :=
  ⟨rfl, rfl, rfl⟩

/-- C3 as amended: upload-form validation applies exactly two gates —
size and extension — and both must pass; the sniffed content type plays
no role in whether the upload proceeds. -/
theorem c3_clean_file_gates (f : UploadedFile) :
    clean_file f = Except.ok f ↔
      (validate_file_size f.size = Except.ok () ∧
       validate_file_extension f.name = Except.ok ()) := by
  unfold clean_file
  cases hs : validate_file_size f.size with
  | error e => simp
  | ok v =>
    cases he : validate_file_extension f.name with
    | error e => simp [he]
    | ok w => simp [he]

/-- Witness for C3 as amended: the executable-content file above passes
both gates and is accepted. -/
theorem c3_clean_file_gates_witness :
    clean_file dosexecFile = Except.ok dosexecFile :=
  (c3_clean_file_gates dosexecFile).mpr ⟨rfl, rfl⟩

/-- C1: in the attachment-delete flow the database row is removed for
every backend behaviour; the signal handler never lets an exception
escape; and a backend delete call is issued exactly when the existence
check returned true (so never after exists=false, and never skipping the
row removal on a backend exception). -/
theorem c1_delete_always_removes_row (b : BlobBackend) (rows : List AttachmentRec)
    (a : AttachmentRec) :
    (attachment_delete b rows a).2 = rows.filter (fun r => r.id != a.id) ∧
    (attachment_delete b rows a).1.raisedOut = false ∧
    (attachment_delete b rows a).1.deleteCalled = existsOkTrue b.existsResult := by
  obtain ⟨er, dr⟩ := b
  cases er with
  | raised => simp [attachment_delete, delete_blob_on_attachment_delete, existsOkTrue]
  | ok v =>
    cases v <;> cases dr <;>
      simp [attachment_delete, delete_blob_on_attachment_delete, existsOkTrue]

/-- C2: if the count cap does not trigger and the blob save raises, the
upload reports failure and leaves the attachment table unchanged; and
whenever the attachment table changes at all, the blob save must have
succeeded (the record is created only after a successful save). -/
theorem c2_no_record_on_save_failure (task_id : Nat) (rows : List AttachmentRec)
    (f : UploadedFile) (now : UTCTime) (uuid_hex : List Char)
    (saveResult : CallResult Unit) (new_id : Nat) :
    ((rows.filter (fun a => a.taskId == task_id)).length < 5 →
      saveResult = CallResult.raised →
      form_valid_upload task_id rows f now uuid_hex saveResult new_id
        = (UploadOutcome.uploadFailed, rows)) ∧
    ((form_valid_upload task_id rows f now uuid_hex saveResult new_id).2 ≠ rows →
      saveResult = CallResult.ok ()) := by
  constructor
  · intro hcap hraised
    subst hraised
    unfold form_valid_upload
    rw [if_neg (by omega)]
  · intro hch
    cases saveResult with
    | ok v => cases v; rfl
    | raised =>
      exfalso
      apply hch
      unfold form_valid_upload
      by_cases hc : 5 ≤ (rows.filter (fun a => a.taskId == task_id)).length
      · simp [hc]
      · simp [hc]

/-- Witness for C2: a concrete failing upload to an empty attachment
table reports the failure and creates no record. -/
theorem c2_no_record_on_save_failure_witness :
    form_valid_upload 7 [] dosexecFile ⟨2024, 1, 1, 12, 0, 0⟩
        "ab12cd34ef56ab78ab12cd34ef56ab78".toList CallResult.raised 1
      = (UploadOutcome.uploadFailed, []) :=
  (c2_no_record_on_save_failure 7 [] dosexecFile ⟨2024, 1, 1, 12, 0, 0⟩
      "ab12cd34ef56ab78ab12cd34ef56ab78".toList CallResult.raised 1).1
    (by decide) rfl

/-- C7: saving with status completada stamps completed_at exactly when
it was unset and keeps an existing stamp; saving with status pendiente
clears it; and repeating a save changes nothing. -/
theorem c7_completed_at_invariant (t : TaskRec) (now now2 : Nat) :
    (t.status = "completada" →
      (taskSave now t).completed_at ≠ none ∧
      (∀ c, t.completed_at = some c → (taskSave now t).completed_at = some c)) ∧
    (t.status = "pendiente" → (taskSave now t).completed_at = none) ∧
    taskSave now2 (taskSave now t) = taskSave now t := by
  have hne : ("completada" : String) ≠ "pendiente" := by decide
  unfold taskSave
  by_cases h1 : t.status = "completada"
  · by_cases h2 : t.completed_at = none
    · simp [h1, h2, hne]
    · simp [h1, h2, hne]
  · by_cases h3 : t.status = "pendiente"
    · simp [h1, h3, hne]
    · simp [h1, h3]

/-- A completada task without a stamp. -/
def taskCompletada : TaskRec :=
  { id := 1, owner := 1, title := "x", status := "completada", priority := "media",
    due_date := none, created_at := 0, completed_at := none }

/-- A pendiente task carrying a stale stamp. -/
def taskPendiente : TaskRec :=
  { id := 2, owner := 1, title := "y", status := "pendiente", priority := "media",
    due_date := none, created_at := 0, completed_at := some 3 }

/-- Witness for C7: a completion save stamps the timestamp and a
reopening save clears it. -/
theorem c7_completed_at_invariant_witness :
    (taskSave 5 taskCompletada).completed_at ≠ none ∧
    (taskSave 5 taskPendiente).completed_at = none :=
  ⟨((c7_completed_at_invariant taskCompletada 5 5).1 rfl).1,
   (c7_completed_at_invariant taskPendiente 5 5).2.1 rfl⟩

/-- A list's find? under a predicate satisfied by a unique member
returns that member. -/
theorem find_unique {α : Type} (p : α → Bool) (l : List α) (x : α) (hx : x ∈ l)
    (hpx : p x = true) (huniq : ∀ y ∈ l, p y = true → y = x) :
    l.find? p = some x := by
  cases hf : l.find? p with
  | none => exact absurd hpx (by simpa using List.find?_eq_none.mp hf x hx)
  | some y =>
    have hy := List.find?_some hf
    have hmem := List.mem_of_find?_eq_some hf
    rw [huniq y hmem hy]

/-- C9: a non-owner acting on a task gets a 404 from the owner-filtered
task views, while a non-owner acting on an attachment (upload to its
task, download, delete) gets a 403 from the attachment views. -/
theorem c9_visibility_policy (user : Nat) (taskdb : List TaskRec)
    (attdb : List AttachmentRec) (t : TaskRec) (a : AttachmentRec)
    (ht : t ∈ taskdb) (htuniq : ∀ x ∈ taskdb, x.id = t.id → x = t)
    (howner : t.owner ≠ user)
    (ha : a ∈ attdb) (hauniq : ∀ x ∈ attdb, x.id = a.id → x = a)
    (hlink : a.taskId = t.id) :
    task_detail_view user taskdb t.id = ViewOutcome.notFound ∧
    attachment_upload_dispatch user taskdb t.id = ViewOutcome.forbidden ∧
    attachment_download_view user taskdb attdb a.id = ViewOutcome.forbidden ∧
    attachment_delete_dispatch user taskdb attdb a.id = ViewOutcome.forbidden := by
  have hTlook : lookupTask taskdb t.id = some t :=
    find_unique _ taskdb t ht (by simp)
      (fun y hy hpy => htuniq y hy (by simpa using hpy))
  have hAlook : lookupAttachment attdb a.id = some a :=
    find_unique _ attdb a ha (by simp)
      (fun y hy hpy => hauniq y hy (by simpa using hpy))
  have hNone :
      (taskdb.filter (fun x => x.owner == user)).find? (fun x => x.id == t.id) = none := by
    apply List.find?_eq_none.mpr
    intro x hxf hbeq
    obtain ⟨hxdb, hxo⟩ := List.mem_filter.mp hxf
    have hxeq : x = t := htuniq x hxdb (by simpa using hbeq)
    exact howner (by rw [← hxeq]; exact (by simpa using hxo))
  refine ⟨?_, ?_, ?_, ?_⟩
  · unfold task_detail_view
    rw [hNone]
  · unfold attachment_upload_dispatch
    rw [hTlook]
    simp [howner]
  · unfold attachment_download_view
    rw [hAlook]
    dsimp only
    rw [hlink, hTlook]
    simp [howner]
  · unfold attachment_delete_dispatch
    rw [hAlook]
    dsimp only
    rw [hlink, hTlook]
    simp [howner]

/-- A task owned by user 2. -/
def foreignTask : TaskRec :=
  { id := 1, owner := 2, title := "t", status := "pendiente", priority := "media",
    due_date := none, created_at := 0, completed_at := none }

/-- An attachment of that task. -/
def foreignAttachment : AttachmentRec :=
  { id := 1, taskId := 1, file_name := "a.pdf".toList,
    blob_name := "1/x_a.pdf".toList, file_size := 1,
    content_type := "application/pdf".toList }

/-- Witness for C9: user 1 against user 2's task and attachment. -/
theorem c9_visibility_policy_witness :
    task_detail_view 1 [foreignTask] 1 = ViewOutcome.notFound ∧
    attachment_upload_dispatch 1 [foreignTask] 1 = ViewOutcome.forbidden ∧
    attachment_download_view 1 [foreignTask] [foreignAttachment] 1 = ViewOutcome.forbidden ∧
    attachment_delete_dispatch 1 [foreignTask] [foreignAttachment] 1 = ViewOutcome.forbidden :=
  c9_visibility_policy 1 [foreignTask] [foreignAttachment] foreignTask foreignAttachment
    (by decide) (by decide) (by decide) (by decide) (by decide) rfl

/-- Three pending tasks of one user created in the order low, medium,
high (status and priority stored as the English strings the view and the
test suite use). -/
def threeTaskDb : List TaskRec :=
  [{ id := 1, owner := 1, title := "t1", status := "pending", priority := "low",
     due_date := none, created_at := 1, completed_at := none },
   { id := 2, owner := 1, title := "t2", status := "pending", priority := "medium",
     due_date := none, created_at := 2, completed_at := none },
   { id := 3, owner := 1, title := "t3", status := "pending", priority := "high",
     due_date := none, created_at := 3, completed_at := none }]

/-- C6 fails on the code: with status=pending and sort=priority the view
sorts by the raw priority string, which is lexicographic — high, low,
medium — and not the claimed ordinal order high, medium, low (ranks
1, 2, 3), even though the view's own comment and the manager's unused
by_priority method describe the ordinal order. -/
theorem c6_priority_sort_is_lexicographic :
    (get_queryset 1 ⟨some "pending", none, some "priority"⟩ threeTaskDb).map
        (fun t => t.priority) = ["high", "low", "medium"] ∧
    (get_queryset 1 ⟨some "pending", none, some "priority"⟩ threeTaskDb).map
        (fun t => priorityRank t.priority) = [1, 3, 2] ∧
    [1, 3, 2] ≠ [1, 2, 3] := by
  refine ⟨by decide, by decide, by decide⟩

/-- When the extension fits under the maximum length, the source
sanitizer agrees with the sanitizer the specification describes. -/
theorem sanitize_filename_eq_spec (filename : List Char)
    (hext : (splitext filename).2.length ≤ 100) :
    sanitize_filename filename 100 = sanitize_filename_spec filename 100 := by
  unfold sanitize_filename sanitize_filename_spec
  dsimp only
  rw [List.map_append]
  rw [List.length_map]
  congr 1
  rw [← List.map_take]
  congr 1
  split_ifs with hgt
  · unfold pySliceTo
    split_ifs with h0
    · congr 1
      omega
    · exfalso
      omega
  · rw [List.take_of_length_le (by omega)]

/-- Rendering the last decimal digit of any number yields an ASCII
digit character. -/
theorem digitChar_mod_isDigit (x : Nat) : isAsciiDigit (Nat.digitChar (x % 10)) = true := by
  have h : x % 10 < 10 := Nat.mod_lt _ (by omega)
  have hall : ∀ k, k < 10 → isAsciiDigit (Nat.digitChar k) = true := by decide
  exact hall _ h

/-- The rendered timestamp always has the 14 characters of
YYYYMMDDHHMMSS. -/
theorem strftimeYmdHMS_length (t : UTCTime) : (strftimeYmdHMS t).length = 14 := by
  simp [strftimeYmdHMS, pad4, pad2]

/-- Every character of a two-digit field rendering is a decimal digit. -/
theorem pad2_digits (n : Nat) : ∀ c ∈ pad2 n, isAsciiDigit c = true := by
  intro c hc
  simp only [pad2, List.mem_cons, List.not_mem_nil, or_false] at hc
  rcases hc with rfl | rfl <;> exact digitChar_mod_isDigit _

/-- Every character of a four-digit field rendering is a decimal digit. -/
theorem pad4_digits (n : Nat) : ∀ c ∈ pad4 n, isAsciiDigit c = true := by
  intro c hc
  simp only [pad4, List.mem_cons, List.not_mem_nil, or_false] at hc
  rcases hc with rfl | rfl | rfl | rfl <;> exact digitChar_mod_isDigit _

/-- Every character of the rendered timestamp is a decimal digit. -/
theorem strftimeYmdHMS_digits (t : UTCTime) :
    ∀ c ∈ strftimeYmdHMS t, isAsciiDigit c = true := by
  intro c hc
  unfold strftimeYmdHMS at hc
  rcases List.mem_append.mp hc with h1 | h
  · rcases List.mem_append.mp h1 with h2 | h
    · rcases List.mem_append.mp h2 with h3 | h
      · rcases List.mem_append.mp h3 with h4 | h
        · rcases List.mem_append.mp h4 with h5 | h
          · exact pad4_digits _ c h5
          · exact pad2_digits _ c h
        · exact pad2_digits _ c h
      · exact pad2_digits _ c h
    · exact pad2_digits _ c h
  · exact pad2_digits _ c h

/-- C5 as amended: whenever the original extension fits under the fixed
maximum length of 100, the generated blob key is
task_id/timestamp_token_sanitized with a 14-digit timestamp, an
8-lowercase-hex-character token taken from the uuid digest, and the
sanitized name exactly as described (characters outside
alphanumeric-space-hyphen-underscore stripped from the base, whitespace
runs collapsed to underscores, leading and trailing underscores and
hyphens trimmed, lower-cased, base truncated to keep the name within the
maximum while preserving the extension), the whole name staying within
100 characters.  The bounds on the time fields state the range in which
the fixed-width rendering models strftime. -/
theorem c5_blob_key_format (task_id : Nat) (now : UTCTime) (uuid_hex : List Char)
    (filename : List Char)
    (hext : (splitext filename).2.length ≤ 100)
    (hlen : 8 ≤ uuid_hex.length)
    (hhex : ∀ c ∈ uuid_hex, isHexLowerChar c = true)
    (hy : now.year < 10000) (hmo : now.month < 100) (hd : now.day < 100)
    (hh : now.hour < 100) (hmi : now.minute < 100) (hs : now.second < 100) :
    ∃ ts tok,
      generate_blob_name task_id now uuid_hex filename
        = natToChars task_id ++ '/' ::
            (ts ++ '_' :: (tok ++ '_' :: sanitize_filename_spec filename 100)) ∧
      ts.length = 14 ∧ (∀ c ∈ ts, isAsciiDigit c = true) ∧
      tok.length = 8 ∧ (∀ c ∈ tok, isHexLowerChar c = true) ∧
      (sanitize_filename_spec filename 100).length ≤ 100 := by
  refine ⟨strftimeYmdHMS now, uuid_hex.take 8, ?_, strftimeYmdHMS_length now,
    strftimeYmdHMS_digits now, ?_, ?_, ?_⟩
  · unfold generate_blob_name
    rw [sanitize_filename_eq_spec filename hext]
  · rw [List.length_take]
    omega
  · intro c hc
    exact hhex c (List.take_subset _ _ hc)
  · unfold sanitize_filename_spec
    dsimp only
    rw [List.length_append, List.length_take, List.length_map]
    omega

/-- A filename whose extension alone exceeds the maximum length: fifty
b characters, a dot, and 120 x characters. -/
def longExtFilename : List Char := List.replicate 50 'b' ++ '.' :: List.replicate 120 'x'

set_option maxRecDepth 8000 in
/-- Counterexample to C5 as stated: on this filename the sanitized name
is 150 characters long — it does not stay within the fixed maximum
length of 100 (Python's negative-slice truncation keeps 29 base
characters and the whole 121-character extension), and it differs from
the name the specification's pipeline would produce. -/
theorem c5_length_counterexample :
    (sanitize_filename longExtFilename 100).length = 150 ∧
    ¬ (sanitize_filename longExtFilename 100).length ≤ 100 ∧
    sanitize_filename longExtFilename 100 ≠ sanitize_filename_spec longExtFilename 100 := by
  refine ⟨by decide, by decide, by decide⟩

/-- A 32-character uuid4 hex digest. -/
def sampleUuidHex : List Char := "ab12cd34ef56ab78ab12cd34ef56ab78".toList

/-- Witness for C5: the scenario key for task 7 at 2024-01-01 12:00:00
with digest prefix ab12cd34 and filename Report.pdf. -/
theorem c5_blob_key_format_witness :
    ∃ ts tok,
      generate_blob_name 7 ⟨2024, 1, 1, 12, 0, 0⟩ sampleUuidHex "Report.pdf".toList
        = natToChars 7 ++ '/' ::
            (ts ++ '_' :: (tok ++ '_' :: sanitize_filename_spec "Report.pdf".toList 100)) ∧
      ts.length = 14 ∧ (∀ c ∈ ts, isAsciiDigit c = true) ∧
      tok.length = 8 ∧ (∀ c ∈ tok, isHexLowerChar c = true) ∧
      (sanitize_filename_spec "Report.pdf".toList 100).length ≤ 100 :=
  c5_blob_key_format 7 ⟨2024, 1, 1, 12, 0, 0⟩ sampleUuidHex "Report.pdf".toList
    (by decide) (by decide) (by decide) (by decide) (by decide) (by decide)
    (by decide) (by decide) (by decide)

end TaskManager
